import Mathlib

/-!
Verification development for the rss-aggregator analysis core.

Shallow embedding of:
  * `src/analysis_utils.py`        (confidence calculator)
  * `src/modules/bayesienappre.py` (Bayesian evidence fusion)
  * `src/modules/corroboration.py` (corroboration matcher and prefilter)
  * `src/modules/bayesian_worker.py` (evidence batch worker)

Python floats are modelled as exact rationals (`ℚ`) where the code only does
field arithmetic, and as reals (`ℝ`) where `math.exp` is involved.  Python's
`round(x, 4)` (round-half-to-even on the scaled value) is modelled exactly on
the idealised rational/real value; representation error of binary64 floats is
outside the model.
-/

namespace RSSAgg

/-! ## Python rounding: `round(x, 4)` (banker's rounding, half to even) -/

/-- Round a rational to the nearest integer, ties to the even integer
(the semantics of Python's built-in `round`). -/
def pyRound (x : ℚ) : ℤ :=
  if Int.fract x = 1/2 then 2 * round (x / 2) else round x

/-- Python `round(x, 4)` on rationals. -/
def round4 (x : ℚ) : ℚ := pyRound (x * 10000) / 10000

/-- Round a real to the nearest integer, ties to the even integer. -/
noncomputable def pyRoundR (x : ℝ) : ℤ :=
  if Int.fract x = 1/2 then 2 * round (x / 2) else round x

/-- Python `round(x, 4)` on reals. -/
noncomputable def round4R (x : ℝ) : ℝ := pyRoundR (x * 10000) / 10000

/-! ## Module `src/modules/bayesienappre.py` — `BayesianLearningSystem`

All arithmetic in this module is field arithmetic on floats, so the model is
exact over `ℚ`.  The class has no mutable state; its single attribute
`default_prior` is the constant below. -/

/-- The attribute `self.default_prior = 0.5`. -/
def default_prior : ℚ := 1/2

/-- Result dictionary of `bayesian_update`: keys `posterior` and `confidence`. -/
structure UpdateOut where
  posterior : ℚ
  confidence : ℚ
deriving DecidableEq, Repr

/-- Model of `BayesianLearningSystem.bayesian_update(prior, likelihood, evidence_weight)`.

Mirrors the source line by line: clamp the three inputs, compute the raw
Bayes posterior (with the `denominator == 0` guard), interpolate by the
evidence weight, bound the confidence to `[0.1, 0.95]`, and round both
outputs to 4 decimals. -/
def bayesian_update (prior likelihood : ℚ) (evidence_weight : ℚ := 1) : UpdateOut :=
  let prior := max (1/100) (min (99/100) prior)
  let likelihood := max (1/100) (min (99/100) likelihood)
  let evidence_weight := max 0 (min 1 evidence_weight)
  let likelihood_not := 1 - likelihood
  let numerator := likelihood * prior
  let denominator := likelihood * prior + likelihood_not * (1 - prior)
  let posterior := if denominator = 0 then prior else numerator / denominator
  let posterior := prior + (posterior - prior) * evidence_weight
  let confidence := |posterior - prior| * evidence_weight
  let confidence := min (95/100) (max (1/10) confidence)
  ⟨round4 posterior, round4 confidence⟩

/-- One element of the `evidences` list passed to `bayesian_fusion_multiple`:
a dict with keys `type`, `value`, `confidence`.  `Option` models a possibly
missing key (the code reads `value` and `confidence` with `.get(…, 0.5)`);
the `type` key is never read by the fusion. -/
structure EvidenceItem where
  etype : String
  value : Option ℚ
  confidence : Option ℚ
deriving DecidableEq, Repr

/-- Result dictionary of `bayesian_fusion_multiple`.  The early-return branch
for an empty evidence list omits the `evidence_count` key, hence the
`Option ℕ`. -/
structure FusionOut where
  posterior : ℚ
  confidence : ℚ
  evidence_count : Option ℕ
deriving DecidableEq, Repr

/-- Loop body of `bayesian_fusion_multiple`: state is
`(current_posterior, cumulative_confidence)`. -/
def fusion_step (st : ℚ × ℚ) (evidence : EvidenceItem) : ℚ × ℚ :=
  let value := evidence.value.getD (1/2)
  let confidence := evidence.confidence.getD (1/2)
  let result := bayesian_update st.1 value confidence
  (result.posterior, st.2 + result.confidence * confidence)

/-- Model of `BayesianLearningSystem.bayesian_fusion_multiple(evidences)`. -/
def bayesian_fusion_multiple (evidences : List EvidenceItem) : FusionOut :=
  if evidences = [] then ⟨default_prior, 0, none⟩
  else
    let st := evidences.foldl fusion_step (default_prior, 0)
    let avg_confidence := st.2 / evidences.length
    ⟨round4 st.1, round4 (min (95/100) avg_confidence), some evidences.length⟩

/-! Spec-side definitions for claim C2 (Contract A), written from the claim's
own words so the source function can be compared against them. -/

/-- The pairwise update as claim C2 words it, without any rounding:
clamp the inputs, raw posterior `L·P / (L·P + (1−L)·(1−P))`, posterior
`prior + (raw − prior)·weight`, confidence `|posterior − prior|·weight`
bounded to `[0.1, 0.95]`. -/
def bayesian_update_claimC2 (prior likelihood evidence_weight : ℚ) : UpdateOut :=
  let p := max (1/100) (min (99/100) prior)
  let l := max (1/100) (min (99/100) likelihood)
  let w := max 0 (min 1 evidence_weight)
  let raw := l * p / (l * p + (1 - l) * (1 - p))
  let post := p + (raw - p) * w
  ⟨post, min (95/100) (max (1/10) (|post - p| * w))⟩

/-- The amended C2 statement: same as the claim, with both returned values
rounded to 4 decimals (the confidence computed from the unrounded posterior). -/
def bayesian_update_amendedC2 (prior likelihood evidence_weight : ℚ) : UpdateOut :=
  let o := bayesian_update_claimC2 prior likelihood evidence_weight
  ⟨round4 o.posterior, round4 o.confidence⟩

/-! ## Python value model for loosely-typed dict inputs

`analysis_utils.compute_confidence_from_features` receives a Python dict whose
values may be numbers, strings, or `None`.  The model covers those three value
shapes (numbers as exact rationals).  `float(…)` on a string succeeds exactly
when the string is a numeric literal; the parser below covers plain
sign/decimal-point literals, which is all the theorems evaluate it on. -/

inductive PyVal where
  | pyNone : PyVal
  | num (q : ℚ) : PyVal
  | str (s : String) : PyVal
deriving DecidableEq, Repr

/-- ASCII whitespace, as recognised by Python's `str.strip` and `\s`
(the model restricts itself to ASCII input). -/
def isPySpace (c : Char) : Bool :=
  c = ' ' || c = '\t' || c = '\n' || c = '\r' || c = '\x0b' || c = '\x0c'

/-- Python `s.strip()` on a character list. -/
def stripChars (l : List Char) : List Char :=
  ((l.dropWhile isPySpace).reverse.dropWhile isPySpace).reverse

/-- Digits-to-nat accumulator; fails on a non-digit character. -/
def parseDigits : List Char → Option ℕ → Option ℕ
  | [], acc => acc
  | c :: rest, acc =>
    if c.isDigit then
      parseDigits rest (some ((acc.getD 0) * 10 + (c.toNat - '0'.toNat)))
    else none

/-- Python `float(s)` on a plain decimal literal: optional sign, digits, optional
fractional part.  Returns `none` where Python raises `ValueError`. -/
def parseFloat (s : String) : Option ℚ :=
  let chars := stripChars s.data
  let (sign, body) :=
    match chars with
    | '-' :: rest => ((-1 : ℚ), rest)
    | '+' :: rest => ((1 : ℚ), rest)
    | _ => ((1 : ℚ), chars)
  match body.splitOn '.' with
  | [intPart] =>
    match parseDigits intPart none with
    | some n => some (sign * n)
    | none => none
  | [intPart, fracPart] =>
    if intPart = [] ∧ fracPart = [] then none
    else
      match parseDigits intPart (some 0), parseDigits fracPart (some 0) with
      | some n, some f => some (sign * (n + (f : ℚ) / (10 : ℚ) ^ fracPart.length))
      | _, _ => none
  | _ => none

/-- Python `float(v)`: numbers pass through, strings are parsed, `None` raises
(`none`). -/
def pyFloat : PyVal → Option ℚ
  | .pyNone => none
  | .num q => some q
  | .str s => parseFloat s

/-- Python truthiness for the modelled values. -/
def pyTruthy : PyVal → Bool
  | .pyNone => false
  | .num q => q ≠ 0
  | .str s => s ≠ ""

/-- Python `a or b` on values. -/
def pyOr (a b : PyVal) : PyVal := if pyTruthy a then a else b

/-- A features dict: key lookup returning the value when the key is present. -/
def FeaturesDict := String → Option PyVal

/-- Dict lookup `features.get(key, default)`. -/
def dictGet (f : FeaturesDict) (key : String) (default : PyVal) : PyVal :=
  (f key).getD default

/-! ## Module `src/analysis_utils.py` — confidence calculator

The weighted-sum/logistic arithmetic uses `math.exp`, so this part of the
model lives in `ℝ` (dict values, being floats, are rationals cast into `ℝ`). -/

/-- Source `clamp01(x)` on an already-numeric value. -/
noncomputable def clamp01 (x : ℝ) : ℝ := max 0 (min 1 x)

/-- Source `clamp01(v)` on a raw dict value: `float(v)` failing yields `0.0`. -/
noncomputable def clamp01Py (v : PyVal) : ℝ :=
  match pyFloat v with
  | none => 0
  | some q => clamp01 (q : ℝ)

/-- Source `logistic(x, k=1.0, x0=0.0)` as called by the calculator. -/
noncomputable def logistic (x : ℝ) : ℝ := 1 / (1 + Real.exp (-x))

/-- The fixed weight table of `compute_confidence_from_features`. -/
structure ConfWeights where
  w_source : ℝ
  w_corro : ℝ
  w_model : ℝ
  w_coverage : ℝ
  w_novelty : ℝ
  w_sent : ℝ

/-- The `explain` dict returned next to the confidence. -/
structure Explain where
  raw_combination : ℝ
  source_reliability : ℝ
  corroboration_norm : ℝ
  model_prob : ℝ
  coverage : ℝ
  novelty : ℝ
  sentiment_strength : ℝ
  weights : ConfWeights

/-- Numeric core of `compute_confidence_from_features`, once the six features
have been extracted from the dict (`sr`, `mp`, `ss`, `nov`, `cov` already
clamped by `clamp01`, `cp` the raw float of `corroboration_count`). -/
noncomputable def confidence_core (sr cp mp ss nov cov : ℝ) : ℝ × Explain :=
  let corro_norm := clamp01 (1 - Real.exp (-cp / 2))
  let w_source : ℝ := 35/100
  let w_corro : ℝ := 25/100
  let w_model : ℝ := 20/100
  let w_coverage : ℝ := 10/100
  let w_novelty : ℝ := 5/100
  let w_sent : ℝ := 5/100
  let raw := w_source * sr + w_corro * corro_norm + w_model * mp +
    w_coverage * cov + w_novelty * (1 - nov) + w_sent * (1 - ss)
  let confidence := logistic ((raw - 1/2) * 6)
  let confidence := clamp01 confidence
  (confidence,
    ⟨raw, sr, corro_norm, mp, cov, nov, ss,
      ⟨w_source, w_corro, w_model, w_coverage, w_novelty, w_sent⟩⟩)

/-- Model of `compute_confidence_from_features(features)`.  The one unguarded call is
`float(features.get('corroboration_count', 0) or 0)`: a non-numeric truthy
value there raises `ValueError`, modelled by `none`.  Every other feature is
read through `clamp01`, which swallows conversion failures. -/
noncomputable def compute_confidence_from_features (features : FeaturesDict) :
    Option (ℝ × Explain) :=
  let sr := clamp01Py (dictGet features "source_reliability" (.num (1/2)))
  match pyFloat (pyOr (dictGet features "corroboration_count" (.num 0)) (.num 0)) with
  | none => none
  | some cp =>
    let mp := clamp01Py (pyOr (dictGet features "model_prob" (.num 0)) (.num 0))
    let ss := clamp01Py (pyOr (dictGet features "sentiment_strength" (.num 0)) (.num 0))
    let nov := clamp01Py (pyOr (dictGet features "novelty_score" (.num 0)) (.num 0))
    let cov := clamp01Py (pyOr (dictGet features "coverage" (.num 0)) (.num 0))
    some (confidence_core sr (cp : ℝ) mp ss nov cov)

/-- A features dict holding the six numeric features, for stating claims that
quantify over numeric feature inputs. -/
def mkFeatures (sr cp mp ss nov cov : ℚ) : FeaturesDict := fun k =>
  if k = "source_reliability" then some (.num sr)
  else if k = "corroboration_count" then some (.num cp)
  else if k = "model_prob" then some (.num mp)
  else if k = "sentiment_strength" then some (.num ss)
  else if k = "novelty_score" then some (.num nov)
  else if k = "coverage" then some (.num cov)
  else none

/-! Spec-side definitions for claim C1, written from the claim's words. -/

/-- The raw weighted sum exactly as claim C1 words it: `corroborationNorm =
1 − exp(−count/2)` with no clamp on that term, every other feature clamped. -/
noncomputable def rawClaimC1 (sr cp mp ss nov cov : ℝ) : ℝ :=
  35/100 * clamp01 sr + 25/100 * (1 - Real.exp (-cp / 2)) +
    20/100 * clamp01 mp + 10/100 * clamp01 cov +
    5/100 * (1 - clamp01 nov) + 5/100 * (1 - clamp01 ss)

/-- The confidence value claim C1 asserts is returned. -/
noncomputable def confidenceClaimC1 (sr cp mp ss nov cov : ℝ) : ℝ :=
  clamp01 (logistic ((rawClaimC1 sr cp mp ss nov cov - 1/2) * 6))

/-- The amended C1 raw sum: identical to the claim except that
`corroborationNorm` is the clamp of `1 − exp(−count/2)` to `[0,1]`
(a no-op whenever the count is nonnegative). -/
noncomputable def rawAmendedC1 (sr cp mp ss nov cov : ℝ) : ℝ :=
  35/100 * clamp01 sr + 25/100 * clamp01 (1 - Real.exp (-cp / 2)) +
    20/100 * clamp01 mp + 10/100 * clamp01 cov +
    5/100 * (1 - clamp01 nov) + 5/100 * (1 - clamp01 ss)

/-- The full result claim C1 (as amended) asserts: confidence plus the
explanation record carrying every intermediate term and the weight table. -/
noncomputable def resultAmendedC1 (sr cp mp ss nov cov : ℝ) : ℝ × Explain :=
  (clamp01 (logistic ((rawAmendedC1 sr cp mp ss nov cov - 1/2) * 6)),
    ⟨rawAmendedC1 sr cp mp ss nov cov, clamp01 sr,
      clamp01 (1 - Real.exp (-cp / 2)), clamp01 mp, clamp01 cov,
      clamp01 nov, clamp01 ss,
      ⟨35/100, 25/100, 20/100, 10/100, 5/100, 5/100⟩⟩)

/-! ## Module `src/modules/corroboration.py` — similarity, prefilter, matcher

The three text backends (sentence-transformer embeddings, TF-IDF cosine,
rapidfuzz/difflib ratio) are external libraries; the engine code only routes
between them.  They are modelled as function parameters: `ratio` for the
fuzzy string backend used by `similarity`, and `semS` for whatever
`semantic_scores` returns for a target text and candidate texts.  Everything
the repository itself computes (normalisation, empty-string short-circuit,
structural similarity, prefilter tiers, score combination, threshold, sort,
truncation) is embedded concretely. -/

/-- Core of `_normalize_text`: strip, lowercase, collapse every whitespace run to a
single space (the model restricts itself to ASCII casing/whitespace). -/
def collapseWS : List Char → List Char
  | [] => []
  | c :: rest =>
    match rest with
    | [] => [if isPySpace c then ' ' else c]
    | d :: _ =>
      if isPySpace c && isPySpace d then collapseWS rest
      else (if isPySpace c then ' ' else c) :: collapseWS rest

/-- Model of `_normalize_text(s)` for string input. -/
def normalize_text (s : String) : String :=
  ⟨collapseWS ((stripChars s.data).map Char.toLower)⟩

/-- Model of `similarity(a, b)`: normalise both sides, return `0.0` when either
normalises to empty, otherwise delegate to the fuzzy backend (`rapidfuzz
token_sort_ratio / 100` or `difflib.SequenceMatcher(...).ratio()`, both
external — the `ratio` parameter). -/
noncomputable def similarity (ratio : String → String → ℝ) (a b : String) : ℝ :=
  let a_n := normalize_text a
  let b_n := normalize_text b
  if a_n = "" ∨ b_n = "" then 0 else ratio a_n b_n

/-- An article dict.  `date`/`pubDate` are modelled after `_to_datetime` has
run: `some t` is a parsed timestamp in epoch seconds, `none` a missing or
unparseable value (the RSS date-string parsing itself is external to the
claims). -/
structure Article where
  id : Option ℤ := none
  title : String := ""
  summary : Option String := none
  content : Option String := none
  source : Option String := none
  feed : Option String := none
  themes : List String := []
  date : Option ℤ := none
  pubDate : Option ℤ := none
deriving DecidableEq, Repr

/-- Truthiness of an optional string (`None` and `""` are falsy). -/
def strTruthy : Option String → Bool
  | some s => s ≠ ""
  | none => false

/-- Python `x or y` on two optional strings. -/
def pyOrStr (x y : Option String) : Option String := if strTruthy x then x else y

/-- Source expression `a.get("source") or a.get("feed") or ""`. -/
def srcOf (a : Article) : String := (pyOrStr a.source a.feed).getD ""

/-- Source expression `article.get("summary") or article.get("content") or ""`. -/
def bodyOf (a : Article) : String := (pyOrStr a.summary a.content).getD ""

/-- Model of `_texts`: the concatenated title+body string for one article. -/
def textOf (a : Article) : String := a.title ++ " " ++ bodyOf a

/-- Source expression `_to_datetime(a.get("date") or a.get("pubDate"))` (datetimes are always
truthy, so `or` is `Option.orElse` here). -/
def dateOf (a : Article) : Option ℤ := a.date.orElse fun _ => a.pubDate

/-- The theme-set Jaccard index computed inside
`compute_structural_similarity`. -/
noncomputable def jaccardOf (a b : Article) : ℝ :=
  ((a.themes.toFinset ∩ b.themes.toFinset).card : ℝ) /
    ((a.themes.toFinset ∪ b.themes.toFinset).card : ℝ)

/-- Model of `CorroborationEngine.compute_structural_similarity(a, b)`: the average of
the sub-scores whose inputs are present — same-source indicator ×0.2, theme
Jaccard ×0.5, temporal decay `exp(−Δseconds/86400)` ×0.3. -/
noncomputable def compute_structural_similarity (a b : Article) : ℝ :=
  let src_a := srcOf a
  let src_b := srcOf b
  let s1 : List ℝ :=
    if src_a ≠ "" ∧ src_b ≠ "" then [(if src_a = src_b then 1 else 0) * (2/10)] else []
  let themes_a := a.themes.toFinset
  let themes_b := b.themes.toFinset
  let s2 : List ℝ :=
    if themes_a ≠ ∅ ∧ themes_b ≠ ∅ then
      if themes_a ∪ themes_b ≠ ∅ then [jaccardOf a b * (5/10)] else []
    else []
  let s3 : List ℝ :=
    match dateOf a, dateOf b with
    | some da, some db => [Real.exp (-(|da - db| : ℤ) / (24 * 3600)) * (3/10)]
    | _, _ => []
  let scores := s1 ++ s2 ++ s3
  if scores = [] then 0 else scores.sum / scores.length

/-! Stable descending sort, modelling Python's stable `list.sort(key=…,
reverse=True)`: an insertion sort that places an earlier element before any
equal-keyed later element. -/

open Classical in
/-- Insert `a` into a descending-sorted list, before the first element whose
key does not exceed `a`'s. -/
noncomputable def insertDesc (key : α → ℝ) (a : α) : List α → List α
  | [] => [a]
  | b :: l => if key b ≤ key a then a :: b :: l else b :: insertDesc key a l

/-- Stable sort by descending key (Python `sort(key=…, reverse=True)`). -/
noncomputable def stableSortDesc (key : α → ℝ) : List α → List α
  | [] => []
  | a :: l => insertDesc key a (stableSortDesc key l)

/-- The `continue` guard at the top of the prefilter loop:
`aid is not None and c.get("id") == aid`. -/
def selfSkip (article c : Article) : Bool :=
  match article.id with
  | some aid => c.id = some aid
  | none => false

/-- The tier-1 test: both sources non-empty and equal. -/
def sameSourceAs (target_source : String) (c : Article) : Bool :=
  target_source ≠ "" && srcOf c ≠ "" && srcOf c = target_source

/-- The tier-2 date test: both dates present and
`abs((da - dc).days) <= window_days` (`timedelta.days` floors). -/
def recentTo (article : Article) (window : ℤ) (c : Article) : Bool :=
  match dateOf c, dateOf article with
  | some dc, some da => |Int.fdiv (da - dc) 86400| ≤ window
  | _, _ => false

/-- The single pass of `_prefilter_candidates` that buckets the pool into
`same_source`, `recent` and `other`, in pool order, with the precedence of
the source loop. -/
def classifyArticles (article : Article) (target_source : String) (window : ℤ) :
    List Article → List Article × List Article × List Article
  | [] => ([], [], [])
  | c :: rest =>
    let acc := classifyArticles article target_source window rest
    if selfSkip article c then acc
    else if sameSourceAs target_source c then (c :: acc.1, acc.2.1, acc.2.2)
    else if recentTo article window c then (acc.1, c :: acc.2.1, acc.2.2)
    else (acc.1, acc.2.1, c :: acc.2.2)

/-- Model of `CorroborationEngine._prefilter_candidates(article, recent_articles)`:
three-tier greedy fill up to `max(5, max_candidates)`. -/
noncomputable def prefilter_candidates (ratio : String → String → ℝ)
    (max_candidates : ℕ) (window : ℤ) (article : Article)
    (pool : List Article) : List Article :=
  if pool = [] then []
  else
    let max_cand := max 5 max_candidates
    let target_source := srcOf article
    let buckets := classifyArticles article target_source window pool
    let selected := buckets.1.take max_cand
    let selected := selected ++ buckets.2.1.take (max_cand - selected.length)
    let needed := max_cand - selected.length
    let scored := buckets.2.2.map fun c => (similarity ratio article.title c.title, c)
    selected ++ ((stableSortDesc Prod.fst scored).take needed).map Prod.snd

/-- One returned corroboration entry: dict with keys `id`, `title`,
`source` and `similarity`. -/
structure Hit where
  id : Option ℤ
  title : String
  source : Option String
  similarity : ℝ

/-- The result-building loop of `find_corroborations`: for each prefiltered
candidate, combine the backend's semantic score (0.0 past the end of the
scores list) with structural similarity as `sem*0.7 + struct*0.3`, keep it
when the total reaches the threshold, and store the total rounded to 4
decimals. -/
noncomputable def hitsOf (article : Article) (candidates : List Article)
    (sem_scores : List ℝ) (threshold : ℝ) : List Hit :=
  candidates.enum.filterMap fun ic =>
    let semantic_sim := sem_scores.getD ic.1 0
    let structural_sim := compute_structural_similarity article ic.2
    let total_sim := semantic_sim * (7/10) + structural_sim * (3/10)
    if total_sim ≥ threshold then
      some ⟨ic.2.id, ic.2.title, pyOrStr ic.2.source ic.2.feed, round4R total_sim⟩
    else none

/-- Model of `CorroborationEngine.find_corroborations(article, recent_articles,
threshold, top_n)`.  `semS` is the semantic backend (`semantic_scores`);
`ratio` the fuzzy backend used inside the prefilter.  `top_n` is modelled as
a natural number; `if top_n:` makes `0` skip the truncation. -/
noncomputable def find_corroborations (ratio : String → String → ℝ)
    (semS : String → List String → List ℝ) (max_candidates : ℕ) (window : ℤ)
    (article : Article) (recent_articles : List Article)
    (threshold : ℝ) (top_n : ℕ) : List Hit :=
  if recent_articles = [] then []
  else
    let candidates := prefilter_candidates ratio max_candidates window article recent_articles
    let target_text := textOf article
    let candidates_texts := candidates.map textOf
    let sem_scores := semS target_text candidates_texts
    let results := hitsOf article candidates sem_scores threshold
    let results := stableSortDesc Hit.similarity results
    if top_n ≠ 0 then results.take top_n else results

/-! ## Module `src/modules/bayesian_worker.py` — `run_batch`

The evidence table is modelled as a list kept in `created_at` order (the
claiming query orders by `created_at`); priors are an association list keyed
by `(entity_type, entity_id)`.  The per-group `try`-block (fusion followed by
the prior upsert) is the one fallible step: it is parametrised as `fuse`,
with `none` modelling a raised exception for that group (the `except` branch
logs and moves on).  Instantiating
`fuse := fun evs => some (bayesian_fusion_multiple evs)` recovers the
no-failure behaviour.  Row locking/commit are outside the single-worker
model. -/

/-- One row of `bayes_evidence`. -/
structure EvRow where
  id : ℕ
  entity_type : String
  entity_id : String
  evidence_type : String
  value : Option ℚ
  confidence : Option ℚ
  processed : Bool
deriving DecidableEq, Repr

/-- One row of `bayes_priors`. -/
structure PriorRecord where
  mu : ℚ
  sigma : ℚ
  alpha : Option ℚ
  beta : Option ℚ
deriving DecidableEq, Repr

/-- The two tables the worker touches. -/
structure WorkerDB where
  evidence : List EvRow
  priors : List ((String × String) × PriorRecord)
deriving DecidableEq, Repr

/-- The evidence dict the worker builds from a row
(`float(...) if ... is not None else 0.5`). -/
def evItemOfRow (r : EvRow) : EvidenceItem :=
  ⟨r.evidence_type, some (r.value.getD (1/2)), some (r.confidence.getD (1/2))⟩

/-- Append an item to its key's group, or open a new group at the end
(Python dicts preserve insertion order). -/
def addToGroups (gs : List ((String × String) × List EvidenceItem))
    (k : String × String) (e : EvidenceItem) :
    List ((String × String) × List EvidenceItem) :=
  match gs with
  | [] => [(k, [e])]
  | (k', es) :: rest =>
    if k' = k then (k', es ++ [e]) :: rest else (k', es) :: addToGroups rest k e

/-- Source loop `groups = defaultdict(list); for r in rows: groups[key].append(...)`. -/
def groupRows (rows : List EvRow) : List ((String × String) × List EvidenceItem) :=
  rows.foldl (fun gs r => addToGroups gs (r.entity_type, r.entity_id) (evItemOfRow r)) []

/-- Query `INSERT ... ON CONFLICT(entity_type, entity_id) DO UPDATE`. -/
def upsertPrior (k : String × String) (p : PriorRecord) :
    List ((String × String) × PriorRecord) → List ((String × String) × PriorRecord)
  | [] => [(k, p)]
  | (k', p') :: rest =>
    if k' = k then (k, p) :: rest else (k', p') :: upsertPrior k p rest

/-- Lookup of a prior row by its key. -/
def lookupPrior (k : String × String) :
    List ((String × String) × PriorRecord) → Option PriorRecord
  | [] => none
  | (k', p) :: rest => if k' = k then some p else lookupPrior k rest

/-- The loop body over one entity group: fuse its evidences and upsert the
resulting prior with `mu = posterior` and `sigma = max(0.01, 1 − confidence)`
(`alpha`/`beta` passed as `NULL`); a raised exception (`none`) leaves the
priors untouched for that group. -/
def worker_step (fuse : List EvidenceItem → Option FusionOut)
    (ps : List ((String × String) × PriorRecord))
    (g : (String × String) × List EvidenceItem) :
    List ((String × String) × PriorRecord) :=
  match fuse g.2 with
  | some out =>
    upsertPrior g.1 ⟨out.posterior, max (1/100) (1 - out.confidence), none, none⟩ ps
  | none => ps

/-- Model of `run_batch()`: claim up to `limit` unprocessed rows in creation order,
group them by entity, run the fallible fusion-and-upsert step per group
(failures are skipped), then mark every claimed row processed. -/
def run_batch (fuse : List EvidenceItem → Option FusionOut) (limit : ℕ)
    (db : WorkerDB) : WorkerDB :=
  let rows := (db.evidence.filter fun r => !r.processed).take limit
  if rows = [] then db
  else
    let ids := rows.map EvRow.id
    let groups := groupRows rows
    let priors := groups.foldl (worker_step fuse) db.priors
    ⟨db.evidence.map fun r => if r.id ∈ ids then { r with processed := true } else r,
      priors⟩

/-! Concrete worker data for the batch-isolation witness: three unprocessed
rows forming two entity groups; the fusion step fails on the single-row
group. -/

/-- Evidence row 1: entity `("t","a")`. -/
def wRow1 : EvRow := ⟨1, "t", "a", "x", some 1, some 1, false⟩

/-- Evidence row 2: entity `("t","b")`. -/
def wRow2 : EvRow := ⟨2, "t", "b", "x", some 1, some 1, false⟩

/-- Evidence row 3: entity `("t","b")` again. -/
def wRow3 : EvRow := ⟨3, "t", "b", "x", none, none, false⟩

/-- Initial worker database for the witness. -/
def wDB : WorkerDB := ⟨[wRow1, wRow2, wRow3], []⟩

/-- A fusion step that throws exactly on single-evidence groups. -/
def wFuse : List EvidenceItem → Option FusionOut :=
  fun evs => if evs.length = 1 then none else some ⟨1, 2, some evs.length⟩

/-! Concrete articles used by the structural-similarity counterexample:
two pairs of records identical except for their theme sets, same non-empty
source, no dates. -/

/-- First pair, left record: no themes. -/
def cexA1 : Article := { source := some "s" }

/-- First pair, right record: one theme. -/
def cexB1 : Article := { source := some "s", themes := ["t"] }

/-- Second pair, left record: one theme. -/
def cexA2 : Article := { source := some "s", themes := ["x"] }

/-- Second pair, right record: ten themes, one shared (Jaccard 1/10). -/
def cexB2 : Article :=
  { source := some "s",
    themes := ["x", "y1", "y2", "y3", "y4", "y5", "y6", "y7", "y8", "y9"] }

/-! Spec-side decomposition of the prefilter into its three tiers, used to
state claim C5: tier 1 the same-source candidates in pool order, tier 2 the
in-window candidates, tier 3 the remaining budget by descending title
similarity. -/

/-- Tier 1 of the prefilter: non-self same-source candidates, pool order,
up to `max(5, maxCandidates)`. -/
def prefTier1 (article : Article) (maxc : ℕ) (pool : List Article) : List Article :=
  (pool.filter fun c => !selfSkip article c && sameSourceAs (srcOf article) c).take
    (max 5 maxc)

/-- Tier 2 of the prefilter: non-self, different-source candidates within the
date window, pool order, filling the remaining budget. -/
def prefTier2 (article : Article) (maxc : ℕ) (window : ℤ) (pool : List Article) :
    List Article :=
  (pool.filter fun c => !selfSkip article c && !sameSourceAs (srcOf article) c &&
    recentTo article window c).take (max 5 maxc - (prefTier1 article maxc pool).length)

/-- The leftover bucket feeding tier 3, scored by title fuzzy similarity. -/
noncomputable def prefOtherScored (ratio : String → String → ℝ) (article : Article)
    (window : ℤ) (pool : List Article) : List (ℝ × Article) :=
  (pool.filter fun c => !selfSkip article c && !sameSourceAs (srcOf article) c &&
    !recentTo article window c).map fun c => (similarity ratio article.title c.title, c)

/-- Tier 3 of the prefilter: leftover candidates by descending title
similarity, filling what tier 1 and tier 2 left of the budget. -/
noncomputable def prefTier3 (ratio : String → String → ℝ) (article : Article)
    (maxc : ℕ) (window : ℤ) (pool : List Article) : List Article :=
  ((stableSortDesc Prod.fst (prefOtherScored ratio article window pool)).take
    (max 5 maxc -
      (prefTier1 article maxc pool ++ prefTier2 article maxc window pool).length)).map
    Prod.snd

/-! Concrete data for the prefilter counterexample: a target and six
same-source candidates, with `maxCandidates = 2`. -/

/-- Target article for the prefilter counterexample. -/
def pfTarget : Article := { id := some 0, source := some "s" }

/-- Six distinct same-source candidates. -/
def pfPool : List Article :=
  [{ id := some 1, source := some "s" }, { id := some 2, source := some "s" },
   { id := some 3, source := some "s" }, { id := some 4, source := some "s" },
   { id := some 5, source := some "s" }, { id := some 6, source := some "s" }]

/-- The intermediate `results` list of `find_corroborations`: prefiltered
candidates scored by the backend and structural similarity, thresholded. -/
noncomputable def matcherHits (ratio : String → String → ℝ)
    (semS : String → List String → List ℝ) (max_candidates : ℕ) (window : ℤ)
    (article : Article) (recent_articles : List Article) (threshold : ℝ) :
    List Hit :=
  hitsOf article (prefilter_candidates ratio max_candidates window article recent_articles)
    (semS (textOf article)
      ((prefilter_candidates ratio max_candidates window article recent_articles).map textOf))
    threshold

/-! Concrete data for the matcher counterexample. -/

/-- Target article for the matcher counterexample. -/
def mTarget : Article := { title := "t", source := some "a" }

/-- The single candidate for the matcher counterexample (different source,
no themes, no dates, so the structural similarity is `0`). -/
def mCand : Article := { id := some 2, title := "c", source := some "b" }

/-! ## Theorems -/

/-- Evaluation helper: `round4` at an argument whose scaled value is not a
half-integer tie. -/
lemma round4_eq_of (x q : ℚ) (n : ℤ) (hq : x * 10000 = q) (h1 : Int.fract q ≠ 1/2)
    (h2 : round q = n) : round4 x = n / 10000 := by
  unfold round4 pyRound
  rw [hq, if_neg h1, h2]

/-- Claim C2, counterexample: at `prior=0.3, likelihood=0.6, weight=1.0` the
code returns the 4-decimal-rounded posterior `0.3913`, not the exact
interpolated value `9/23 = 0.3913043…` that the claim's formula yields, so
the claim as stated is false. -/
theorem bayes_update_rounding_cex :
    (bayesian_update (3/10) (6/10) 1).posterior = 3913/10000 ∧
    (bayesian_update_claimC2 (3/10) (6/10) 1).posterior = 9/23 ∧
    (3913/10000 : ℚ) ≠ 9/23 := by
  refine ⟨?_, ?_, by norm_num⟩
  · have h : bayesian_update (3/10) (6/10) 1 = ⟨round4 (9/23), round4 (1/10)⟩ := by
      simp only [bayesian_update]
      norm_num [abs_of_pos, min_def, max_def]
    rw [h]
    show round4 (9/23) = 3913/10000
    rw [round4_eq_of (9/23) (90000/23) 3913 (by norm_num) (by rw [Int.fract]; norm_num)
      (by rw [round_eq]; norm_num)]
    norm_num
  · simp only [bayesian_update_claimC2]
    norm_num [min_def, max_def]

/-- Claim C2 as amended: the pairwise update clamps prior and likelihood to
`[0.01, 0.99]` and the weight to `[0, 1]`, computes the raw posterior
`L·P/(L·P+(1−L)·(1−P))`, interpolates `prior + (raw − prior)·weight`, bounds
`|posterior − prior|·weight` to `[0.1, 0.95]`, and returns both values
rounded to 4 decimals. -/
theorem bayes_update_amended_eq (prior likelihood evidence_weight : ℚ) :
    bayesian_update prior likelihood evidence_weight =
      bayesian_update_amendedC2 prior likelihood evidence_weight := by
  simp only [bayesian_update, bayesian_update_amendedC2, bayesian_update_claimC2]
  have hl : (0:ℚ) < max (1/100) (min (99/100) likelihood) :=
    lt_of_lt_of_le (by norm_num) (le_max_left _ _)
  have hp : (0:ℚ) < max (1/100) (min (99/100) prior) :=
    lt_of_lt_of_le (by norm_num) (le_max_left _ _)
  have hl1 : max (1/100) (min (99/100) likelihood) ≤ 99/100 :=
    max_le (by norm_num) (min_le_left _ _)
  have hp1 : max (1/100) (min (99/100) prior) ≤ 99/100 :=
    max_le (by norm_num) (min_le_left _ _)
  have hden : max (1/100) (min (99/100) likelihood) * max (1/100) (min (99/100) prior) +
      (1 - max (1/100) (min (99/100) likelihood)) *
        (1 - max (1/100) (min (99/100) prior)) ≠ 0 := by
    have h1 := mul_pos hl hp
    have h2 : (0:ℚ) ≤ (1 - max (1/100) (min (99/100) likelihood)) *
        (1 - max (1/100) (min (99/100) prior)) :=
      mul_nonneg (by linarith) (by linarith)
    exact ne_of_gt (add_pos_of_pos_of_nonneg h1 h2)
  rw [if_neg hden]

/-- Claim C9, counterexample: with `prior = likelihood = 0.8` and weight 1 the
posterior is `0.9412`, not the prior — likelihood equal to the prior is not
in general uninformative under this update rule. -/
theorem bayes_update_prior_eq_likelihood_cex :
    (bayesian_update (8/10) (8/10) 1).posterior = 2353/2500 ∧
    (2353/2500 : ℚ) ≠ 8/10 := by
  refine ⟨?_, by norm_num⟩
  have h : bayesian_update (8/10) (8/10) 1 = ⟨round4 (16/17), round4 (12/85)⟩ := by
    simp only [bayesian_update]
    norm_num [abs_of_pos, min_def, max_def]
  rw [h]
  show round4 (16/17) = 2353/2500
  rw [round4_eq_of (16/17) (160000/17) 9412 (by norm_num) (by rw [Int.fract]; norm_num)
    (by rw [round_eq]; norm_num)]
  norm_num

/-- Claim C9 as amended: `update(0.5, 0.5, 1.0)` yields posterior exactly 0.5,
and the uninformative likelihood is `0.5` (not "likelihood = prior"): for
every prior and weight, a likelihood of 0.5 returns the clamped prior
(rounded to 4 decimals) as posterior. -/
theorem bayes_neutral_likelihood :
    bayesian_update (1/2) (1/2) 1 = ⟨1/2, 1/10⟩ ∧
    ∀ prior evidence_weight : ℚ,
      (bayesian_update prior (1/2) evidence_weight).posterior =
        round4 (max (1/100) (min (99/100) prior)) := by
  constructor
  · have r1 : round4 (1/2 : ℚ) = 1/2 := by
      rw [round4_eq_of (1/2) 5000 5000 (by norm_num) (by rw [Int.fract]; norm_num)
        (by rw [round_eq]; norm_num)]
      norm_num
    have r2 : round4 (1/10 : ℚ) = 1/10 := by
      rw [round4_eq_of (1/10) 1000 1000 (by norm_num) (by rw [Int.fract]; norm_num)
        (by rw [round_eq]; norm_num)]
      norm_num
    have h : bayesian_update (1/2) (1/2) 1 = ⟨round4 (1/2), round4 (1/10)⟩ := by
      simp only [bayesian_update]
      norm_num [min_def, max_def]
    rw [h, r1, r2]
  · intro prior w
    simp only [bayesian_update]
    rw [show max (1/100) (min (99/100) (1/2 : ℚ)) = 1/2 by norm_num [min_def, max_def]]
    set q := max (1/100) (min (99/100) prior) with hq
    rw [show (1/2 : ℚ) * q + (1 - 1/2) * (1 - q) = 1/2 by ring,
      if_neg (by norm_num : (1/2 : ℚ) ≠ 0)]
    show round4 (q + (1/2 * q / (1/2) - q) * _) = round4 q
    congr 1
    field_simp

/-- Claim C10: the sequential multi-evidence fold on an empty evidence list
returns the neutral default prior 0.5 as posterior and confidence exactly
0.0 (and, being the early-return branch, omits the evidence count). -/
theorem fusion_empty_default :
    bayesian_fusion_multiple [] = ⟨1/2, 0, none⟩ := rfl

/-! Helper lemmas for the confidence calculator. -/

/-- Evaluation: `x or 0` then `float(…)` on a numeric value is the identity. -/
lemma pyFloat_or_num (q : ℚ) : pyFloat (pyOr (.num q) (.num 0)) = some q := by
  by_cases h : q = 0 <;> simp [pyOr, pyTruthy, pyFloat, h]

/-- Evaluation: `clamp01(x or 0)` on a numeric value is `clamp01 x`. -/
lemma clamp01Py_or_num (q : ℚ) : clamp01Py (pyOr (.num q) (.num 0)) = clamp01 (q : ℝ) := by
  by_cases h : q = 0 <;> simp [pyOr, pyTruthy, clamp01Py, pyFloat, h]

/-- Evaluation of the confidence calculator on a purely numeric features
dict: every feature is extracted and clamped, the count passed through raw. -/
lemma compute_confidence_mkFeatures (sr cp mp ss nov cov : ℚ) :
    compute_confidence_from_features (mkFeatures sr cp mp ss nov cov) =
      some (confidence_core (clamp01 (sr : ℝ)) (cp : ℝ) (clamp01 (mp : ℝ))
        (clamp01 (ss : ℝ)) (clamp01 (nov : ℝ)) (clamp01 (cov : ℝ))) := by
  have h1 : dictGet (mkFeatures sr cp mp ss nov cov) "source_reliability" (.num (1/2)) =
      .num sr := by simp [dictGet, mkFeatures]
  have h2 : dictGet (mkFeatures sr cp mp ss nov cov) "corroboration_count" (.num 0) =
      .num cp := by simp [dictGet, mkFeatures]
  have h3 : dictGet (mkFeatures sr cp mp ss nov cov) "model_prob" (.num 0) =
      .num mp := by simp [dictGet, mkFeatures]
  have h4 : dictGet (mkFeatures sr cp mp ss nov cov) "sentiment_strength" (.num 0) =
      .num ss := by simp [dictGet, mkFeatures]
  have h5 : dictGet (mkFeatures sr cp mp ss nov cov) "novelty_score" (.num 0) =
      .num nov := by simp [dictGet, mkFeatures]
  have h6 : dictGet (mkFeatures sr cp mp ss nov cov) "coverage" (.num 0) =
      .num cov := by simp [dictGet, mkFeatures]
  unfold compute_confidence_from_features
  rw [h1, h2, h3, h4, h5, h6, pyFloat_or_num, clamp01Py_or_num, clamp01Py_or_num,
    clamp01Py_or_num, clamp01Py_or_num]
  rfl

/-- Positivity: `0 < logistic x`. -/
lemma logistic_pos (x : ℝ) : 0 < logistic x := by
  unfold logistic
  positivity

/-- Upper bound: `logistic x < 1`. -/
lemma logistic_lt_one (x : ℝ) : logistic x < 1 := by
  unfold logistic
  rw [div_lt_one (by positivity)]
  linarith [Real.exp_pos (-x)]

/-- Clamping a logistic value to `[0,1]` is the identity. -/
lemma clamp01_logistic (x : ℝ) : clamp01 (logistic x) = logistic x := by
  unfold clamp01
  rw [min_eq_right (le_of_lt (logistic_lt_one x)), max_eq_right (le_of_lt (logistic_pos x))]

/-- The logistic squashing function is strictly monotone. -/
lemma logistic_strictMono : StrictMono logistic := by
  intro a b hab
  unfold logistic
  have : Real.exp (-b) < Real.exp (-a) := Real.exp_lt_exp.mpr (by linarith)
  exact one_div_lt_one_div_of_lt (by positivity) (by linarith)

/-- The clamp `clamp01` is the identity on `[0,1]`. -/
lemma clamp01_of_mem (x : ℝ) (h0 : 0 ≤ x) (h1 : x ≤ 1) : clamp01 x = x := by
  unfold clamp01
  rw [min_eq_right h1, max_eq_right h0]

/-- The clamp `clamp01` collapses nonpositive values to `0`. -/
lemma clamp01_of_nonpos (x : ℝ) (h : x ≤ 0) : clamp01 x = 0 := by
  unfold clamp01
  rw [min_eq_right (le_trans h (by norm_num)), max_eq_left h]

/-- Claim C1, counterexample: on the feature input with
`corroboration_count = −4` (and neutral values elsewhere) the returned
confidence is not `logistic((raw − 0.5)·6)` for the claim's raw sum, because
the code clamps `1 − exp(−count/2)` to `[0,1]` while the claim's formula
leaves it unclamped (here `1 − e² < 0`). -/
theorem confidence_formula_cex :
    (compute_confidence_from_features (mkFeatures (1/2) (-4) 0 0 0 0)).map Prod.fst ≠
      some (confidenceClaimC1 (1/2) (-4) 0 0 0 0) := by
  rw [compute_confidence_mkFeatures]
  simp only [Option.map_some', ne_eq, Option.some.injEq]
  have hexp : (1 : ℝ) < Real.exp 2 := Real.one_lt_exp_iff.mpr (by norm_num)
  unfold confidence_core confidenceClaimC1 rawClaimC1
  push_cast
  have e1 : clamp01 (1/2 : ℝ) = 1/2 := clamp01_of_mem _ (by norm_num) (by norm_num)
  have e0 : clamp01 (0 : ℝ) = 0 := clamp01_of_nonpos _ (by norm_num)
  have earg : -(-4 : ℝ) / 2 = 2 := by norm_num
  have ecorro : clamp01 (1 - Real.exp (-(-4 : ℝ) / 2)) = 0 := by
    rw [earg]
    exact clamp01_of_nonpos _ (by linarith)
  simp only [e1, e0, ecorro, earg, clamp01_logistic]
  intro h
  have hne := logistic_strictMono.injective h
  nlinarith [hexp]

/-- Claim C1 as amended: for every numeric feature input the calculator
returns `logistic((raw − 0.5)·6)` clamped to `[0,1]`, where `raw` is the
claimed weighted sum with `corroborationNorm = clamp01(1 − exp(−count/2))`
(the clamp being the sole amendment, a no-op for nonnegative counts), and
the explanation record carries every intermediate term and the weight
table. -/
theorem confidence_formula_amended (sr cp mp ss nov cov : ℚ) :
    compute_confidence_from_features (mkFeatures sr cp mp ss nov cov) =
      some (resultAmendedC1 (sr : ℝ) (cp : ℝ) (mp : ℝ) (ss : ℝ) (nov : ℝ) (cov : ℝ)) := by
  rw [compute_confidence_mkFeatures]
  rfl

/-- Claim C8 (code bug): `float(features.get('corroboration_count', 0) or 0)`
is not guarded, so a non-numeric truthy value there — e.g. the string
`"abc"` — raises `ValueError` instead of being replaced by a neutral
default; the calculator does not always return a result. -/
theorem confidence_raises_on_bad_count :
    compute_confidence_from_features
      (fun k => if k = "corroboration_count" then some (.str "abc") else none) = none := by
  unfold compute_confidence_from_features
  simp only [show pyFloat (pyOr (dictGet
    (fun k => if k = "corroboration_count" then some (PyVal.str "abc") else none)
    "corroboration_count" (.num 0)) (.num 0)) = none from by decide]

/-! Claim C6: similarity of a string with itself. -/

/-- Claim C6, counterexample: the non-empty string `" "` normalises to the
empty string, so `similarity(s, s)` short-circuits to `0.0` before any
backend runs — even under an ideal backend that scores every identical pair
`1.0`. -/
theorem similarity_self_cex :
    similarity (fun a b => if a = b then (1 : ℝ) else 0) " " " " = 0 ∧
    (" " : String) ≠ "" := by
  refine ⟨?_, by decide⟩
  have h : normalize_text " " = "" := by decide
  simp [similarity, h]

/-- Claim C6 as amended: for every string whose normalisation (strip,
lowercase, whitespace-collapse) is non-empty, `similarity(s, s)` hands the
normalised string to the backend, and equals `1.0` for every backend that
scores a non-empty string against itself as `1.0` (as the fuzzy, lexical and
embedding backends do on their supported inputs). -/
theorem similarity_self_amended (ratio : String → String → ℝ) (s : String)
    (hratio : ∀ t : String, t ≠ "" → ratio t t = 1)
    (hs : normalize_text s ≠ "") :
    similarity ratio s s = 1 := by
  unfold similarity
  rw [if_neg (by simp [hs])]
  exact hratio _ hs

/-- Witness for the amended C6 at the ideal backend and `s = "Abc"`. -/
theorem similarity_self_amended_witness :
    ((∀ t : String, t ≠ "" → (fun a b : String => if a = b then (1 : ℝ) else 0) t t = 1) ∧
      normalize_text "Abc" ≠ "") ∧
    similarity (fun a b : String => if a = b then (1 : ℝ) else 0) "Abc" "Abc" = 1 :=
  ⟨⟨fun _ _ => by simp, by decide⟩,
    similarity_self_amended _ _ (fun _ _ => by simp) (by decide)⟩

/-! Claim C7: theme-overlap monotonicity of structural similarity. -/

/-- Record updates that only change `themes` keep the source fields. -/
lemma srcOf_withThemes (x : Article) (t : List String) :
    srcOf { x with themes := t } = srcOf x := rfl

/-- Record updates that only change `themes` keep the date fields. -/
lemma dateOf_withThemes (x : Article) (t : List String) :
    dateOf { x with themes := t } = dateOf x := rfl

/-- The `themes` field of a themes-update. -/
lemma themes_withThemes (x : Article) (t : List String) :
    ({ x with themes := t } : Article).themes = t := rfl

/-- Claim C7, counterexample: the two pairs are identical except for theme
sets, the Jaccard index strictly increases from `0` to `1/10`, yet the
structural similarity strictly **decreases** (from `0.2` to `0.125`): with an
empty theme set the theme component is dropped from the average entirely
rather than contributing `0`. -/
theorem structural_jaccard_cex :
    cexA1 = { cexA2 with themes := [] } ∧
    cexB1 = { cexB2 with themes := ["t"] } ∧
    jaccardOf cexA1 cexB1 = 0 ∧
    jaccardOf cexA2 cexB2 = 1/10 ∧
    compute_structural_similarity cexA2 cexB2 <
      compute_structural_similarity cexA1 cexB1 := by
  refine ⟨rfl, rfl, ?_, ?_, ?_⟩
  · have h : (cexA1.themes.toFinset ∩ cexB1.themes.toFinset).card = 0 := by decide
    have h2 : (cexA1.themes.toFinset ∪ cexB1.themes.toFinset).card = 1 := by decide
    unfold jaccardOf
    rw [h, h2]
    norm_num
  · have h : (cexA2.themes.toFinset ∩ cexB2.themes.toFinset).card = 1 := by decide
    have h2 : (cexA2.themes.toFinset ∪ cexB2.themes.toFinset).card = 10 := by decide
    unfold jaccardOf
    rw [h, h2]
    norm_num
  · have hj2 : jaccardOf cexA2 cexB2 = 1/10 := by
      have h : (cexA2.themes.toFinset ∩ cexB2.themes.toFinset).card = 1 := by decide
      have h2 : (cexA2.themes.toFinset ∪ cexB2.themes.toFinset).card = 10 := by decide
      unfold jaccardOf
      rw [h, h2]
      norm_num
    have hs1 : compute_structural_similarity cexA1 cexB1 = 1/5 := by
      have c1 : srcOf cexA1 ≠ "" ∧ srcOf cexB1 ≠ "" := by decide
      have c2 : ¬(cexA1.themes.toFinset ≠ ∅ ∧ cexB1.themes.toFinset ≠ ∅) := by decide
      have c3 : srcOf cexA1 = srcOf cexB1 := by decide
      simp only [compute_structural_similarity]
      rw [if_pos c1, if_neg c2, if_pos c3]
      simp [dateOf, cexA1, cexB1]
      norm_num
    have hs2 : compute_structural_similarity cexA2 cexB2 = 1/8 := by
      have c1 : srcOf cexA2 ≠ "" ∧ srcOf cexB2 ≠ "" := by decide
      have c2 : cexA2.themes.toFinset ≠ ∅ ∧ cexB2.themes.toFinset ≠ ∅ := by decide
      have c2' : cexA2.themes.toFinset ∪ cexB2.themes.toFinset ≠ ∅ := by decide
      have c3 : srcOf cexA2 = srcOf cexB2 := by decide
      simp only [compute_structural_similarity]
      rw [if_pos c1, if_pos c2, if_pos c2', if_pos c3, hj2]
      simp [dateOf, cexA2, cexB2]
      norm_num
    rw [hs1, hs2]
    norm_num

/-- Claim C7 as amended: for two pairs of records identical except for their
theme sets, **provided every theme set involved is non-empty** (so the theme
component participates in the average on both sides), strictly increasing the
Jaccard index strictly increases `structuralSim`, and hence never decreases
the total corroboration score `0.7·semanticSim + 0.3·structuralSim`. -/
theorem structural_jaccard_amended (a b : Article) (t1 t2 t1' t2' : List String)
    (h1 : t1.toFinset ≠ ∅) (h2 : t2.toFinset ≠ ∅)
    (h1' : t1'.toFinset ≠ ∅) (h2' : t2'.toFinset ≠ ∅)
    (hj : jaccardOf { a with themes := t1 } { b with themes := t2 } <
      jaccardOf { a with themes := t1' } { b with themes := t2' }) :
    compute_structural_similarity { a with themes := t1 } { b with themes := t2 } <
      compute_structural_similarity { a with themes := t1' } { b with themes := t2' } ∧
    ∀ sem : ℝ,
      sem * (7/10) +
        compute_structural_similarity { a with themes := t1 } { b with themes := t2 } * (3/10) ≤
      sem * (7/10) +
        compute_structural_similarity { a with themes := t1' } { b with themes := t2' } * (3/10) := by
  have hlt : compute_structural_similarity { a with themes := t1 } { b with themes := t2 } <
      compute_structural_similarity { a with themes := t1' } { b with themes := t2' } := by
    have hC : t1.toFinset ≠ ∅ ∧ t2.toFinset ≠ ∅ := ⟨h1, h2⟩
    have hC' : t1'.toFinset ≠ ∅ ∧ t2'.toFinset ≠ ∅ := ⟨h1', h2'⟩
    have hU : t1.toFinset ∪ t2.toFinset ≠ ∅ :=
      fun hu => h1 (Finset.union_eq_empty.mp hu).1
    have hU' : t1'.toFinset ∪ t2'.toFinset ≠ ∅ :=
      fun hu => h1' (Finset.union_eq_empty.mp hu).1
    simp only [compute_structural_similarity, srcOf_withThemes, dateOf_withThemes,
      themes_withThemes]
    rw [if_pos hC, if_pos hC', if_pos hU, if_pos hU']
    by_cases hS : srcOf a ≠ "" ∧ srcOf b ≠ "" <;>
      [rw [if_pos hS]; rw [if_neg hS]] <;>
      rcases hda : dateOf a with _ | da <;>
      rcases hdb : dateOf b with _ | db <;>
      simp only [hda, hdb] <;>
      simp only [List.nil_append, List.cons_append, List.append_nil,
        List.sum_cons, List.sum_nil, List.length_cons, List.length_nil,
        ne_eq, List.cons_ne_nil, not_false_eq_true, if_true, reduceCtorEq,
        ite_false, ite_true, if_neg, if_pos] <;>
      push_cast <;>
      rw [div_lt_div_iff_of_pos_right (by norm_num)] <;>
      linarith
  exact ⟨hlt, fun sem => by nlinarith [hlt]⟩

/-- Witness for the amended C7: Jaccard rises from `1/2` to `1`, the
structural similarity strictly rises and the total score cannot drop. -/
theorem structural_jaccard_amended_witness :
    ((["x"] : List String).toFinset ≠ ∅ ∧ (["x", "y"] : List String).toFinset ≠ ∅ ∧
      (["x"] : List String).toFinset ≠ ∅ ∧ (["x"] : List String).toFinset ≠ ∅ ∧
      jaccardOf { ({} : Article) with themes := ["x"] }
          { ({} : Article) with themes := ["x", "y"] } <
        jaccardOf { ({} : Article) with themes := ["x"] }
          { ({} : Article) with themes := ["x"] }) ∧
    compute_structural_similarity { ({} : Article) with themes := ["x"] }
        { ({} : Article) with themes := ["x", "y"] } <
      compute_structural_similarity { ({} : Article) with themes := ["x"] }
        { ({} : Article) with themes := ["x"] } := by
  have hj : jaccardOf { ({} : Article) with themes := ["x"] }
      { ({} : Article) with themes := ["x", "y"] } <
      jaccardOf { ({} : Article) with themes := ["x"] }
        { ({} : Article) with themes := ["x"] } := by
    have e1 : jaccardOf { ({} : Article) with themes := ["x"] }
        { ({} : Article) with themes := ["x", "y"] } = 1/2 := by
      unfold jaccardOf
      simp only [themes_withThemes]
      rw [show ((["x"] : List String).toFinset ∩
          (["x", "y"] : List String).toFinset).card = 1 from by decide,
        show ((["x"] : List String).toFinset ∪
          (["x", "y"] : List String).toFinset).card = 2 from by decide]
      norm_num
    have e2 : jaccardOf { ({} : Article) with themes := ["x"] }
        { ({} : Article) with themes := ["x"] } = 1 := by
      unfold jaccardOf
      simp only [themes_withThemes]
      rw [show ((["x"] : List String).toFinset ∩
          (["x"] : List String).toFinset).card = 1 from by decide,
        show ((["x"] : List String).toFinset ∪
          (["x"] : List String).toFinset).card = 1 from by decide]
      norm_num
    rw [e1, e2]
    norm_num
  exact ⟨⟨by decide, by decide, by decide, by decide, hj⟩,
    (structural_jaccard_amended {} {} ["x"] ["x", "y"] ["x"] ["x"]
      (by decide) (by decide) (by decide) (by decide) hj).1⟩

/-! Structural lemmas about the stable descending sort. -/

/-- Inserting permutes: `insertDesc key a l` is `a :: l` up to order. -/
lemma insertDesc_perm (key : α → ℝ) (a : α) (l : List α) :
    List.Perm (insertDesc key a l) (a :: l) := by
  induction l with
  | nil => rfl
  | cons b l ih =>
    by_cases h : key b ≤ key a
    · simp only [insertDesc, if_pos h]
      exact List.Perm.refl _
    · simp only [insertDesc, if_neg h]
      exact (ih.cons b).trans (List.Perm.swap a b l)

/-- The stable sort permutes its input. -/
lemma stableSortDesc_perm (key : α → ℝ) (l : List α) :
    List.Perm (stableSortDesc key l) l := by
  induction l with
  | nil => rfl
  | cons a l ih =>
    show List.Perm (insertDesc key a (stableSortDesc key l)) (a :: l)
    exact (insertDesc_perm key a _).trans (ih.cons a)

/-- Inserting into a descending-sorted list keeps it descending-sorted. -/
lemma insertDesc_sorted (key : α → ℝ) (a : α) (l : List α)
    (h : l.Pairwise fun x y => key y ≤ key x) :
    (insertDesc key a l).Pairwise fun x y => key y ≤ key x := by
  induction l with
  | nil => simp [insertDesc]
  | cons b l ih =>
    rw [List.pairwise_cons] at h
    obtain ⟨hb, hl⟩ := h
    by_cases hba : key b ≤ key a
    · simp only [insertDesc, if_pos hba]
      rw [List.pairwise_cons]
      refine ⟨fun y hy => ?_, List.pairwise_cons.mpr ⟨hb, hl⟩⟩
      rcases List.mem_cons.mp hy with h1 | h2
      · rw [h1]; exact hba
      · exact le_trans (hb y h2) hba
    · simp only [insertDesc, if_neg hba]
      rw [List.pairwise_cons]
      refine ⟨fun y hy => ?_, ih hl⟩
      rcases List.mem_cons.mp ((insertDesc_perm key a l).mem_iff.mp hy) with h1 | h2
      · rw [h1]; exact le_of_lt (not_le.mp hba)
      · exact hb y h2

/-- The stable sort is descending-sorted. -/
lemma stableSortDesc_sorted (key : α → ℝ) (l : List α) :
    (stableSortDesc key l).Pairwise fun x y => key y ≤ key x := by
  induction l with
  | nil => simp [stableSortDesc]
  | cons a l ih => exact insertDesc_sorted key a _ ih

/-- Insertion and filtering by an exact key value commute: the inserted
element lands after every equal-keyed element already present… never before
one (elements skipped on the way in have strictly larger keys). -/
lemma insertDesc_filter (key : α → ℝ) (k : ℝ) (a : α) (l : List α) :
    (insertDesc key a l).filter (fun x => decide (key x = k)) =
      if key a = k then a :: l.filter (fun x => decide (key x = k))
      else l.filter (fun x => decide (key x = k)) := by
  induction l with
  | nil =>
    by_cases hak : key a = k <;> simp [insertDesc, List.filter, hak]
  | cons b l ih =>
    by_cases hba : key b ≤ key a
    · rw [show insertDesc key a (b :: l) = a :: b :: l from by
        simp [insertDesc, hba]]
      by_cases hak : key a = k <;> simp [List.filter_cons, hak]
    · rw [show insertDesc key a (b :: l) = b :: insertDesc key a l from by
        simp [insertDesc, hba]]
      by_cases hak : key a = k
      · have hbk : ¬(key b = k) := fun hb => hba (le_of_eq (hb.trans hak.symm))
        simp [List.filter_cons, hak, hbk, ih]
      · simp [List.filter_cons, hak, ih]

/-- Stability: sorting preserves the relative order of equal-keyed elements
(the sorted list filtered to one key value equals the input so filtered). -/
lemma stableSortDesc_filter (key : α → ℝ) (k : ℝ) (l : List α) :
    (stableSortDesc key l).filter (fun x => decide (key x = k)) =
      l.filter (fun x => decide (key x = k)) := by
  induction l with
  | nil => rfl
  | cons a l ih =>
    show (insertDesc key a (stableSortDesc key l)).filter _ = _
    rw [insertDesc_filter, List.filter_cons]
    by_cases hak : key a = k <;> simp [hak, ih]

/-- The one-pass bucket classification of the prefilter equals three
filters of the pool with the loop's precedence baked in. -/
lemma classifyArticles_eq (article : Article) (ts : String) (w : ℤ)
    (pool : List Article) :
    classifyArticles article ts w pool =
      (pool.filter fun c => !selfSkip article c && sameSourceAs ts c,
       pool.filter fun c => !selfSkip article c && !sameSourceAs ts c &&
         recentTo article w c,
       pool.filter fun c => !selfSkip article c && !sameSourceAs ts c &&
         !recentTo article w c) := by
  induction pool with
  | nil => rfl
  | cons c rest ih =>
    simp only [classifyArticles, ih]
    by_cases h1 : selfSkip article c <;> by_cases h2 : sameSourceAs ts c <;>
      by_cases h3 : recentTo article w c <;>
      simp [List.filter_cons, h1, h2, h3]

/-! Claim C5: the candidate prefilter. -/

/-- The prefilter computes exactly the three-tier concatenation. -/
lemma prefilter_eq_tiers (ratio : String → String → ℝ) (maxc : ℕ) (window : ℤ)
    (article : Article) (pool : List Article) :
    prefilter_candidates ratio maxc window article pool =
      prefTier1 article maxc pool ++ prefTier2 article maxc window pool ++
        prefTier3 ratio article maxc window pool := by
  by_cases hp : pool = []
  · subst hp
    simp [prefilter_candidates, prefTier1, prefTier2, prefTier3, prefOtherScored,
      stableSortDesc]
  · simp only [prefilter_candidates, if_neg hp, classifyArticles_eq, prefTier1,
      prefTier2, prefTier3, prefOtherScored]

/-- Membership in tier 1 forces the tier-1 predicate. -/
lemma mem_prefTier1 (article : Article) (maxc : ℕ) (pool : List Article)
    (c : Article) (hc : c ∈ prefTier1 article maxc pool) :
    c ∈ pool ∧ selfSkip article c = false ∧
      sameSourceAs (srcOf article) c = true := by
  have h := List.mem_filter.mp ((List.take_sublist _ _).subset hc)
  have h2 := h.2
  simp only [Bool.and_eq_true, Bool.not_eq_true'] at h2
  exact ⟨h.1, h2.1, h2.2⟩

/-- Membership in tier 2 forces the tier-2 predicate. -/
lemma mem_prefTier2 (article : Article) (maxc : ℕ) (window : ℤ)
    (pool : List Article) (c : Article)
    (hc : c ∈ prefTier2 article maxc window pool) :
    c ∈ pool ∧ selfSkip article c = false ∧
      sameSourceAs (srcOf article) c = false ∧
      recentTo article window c = true := by
  have h := List.mem_filter.mp ((List.take_sublist _ _).subset hc)
  have h2 := h.2
  simp only [Bool.and_eq_true, Bool.not_eq_true'] at h2
  exact ⟨h.1, h2.1.1, h2.1.2, h2.2⟩

/-- Every element of the scored leftover bucket is its article paired with
its title similarity. -/
lemma mem_prefOtherScored (ratio : String → String → ℝ) (article : Article)
    (window : ℤ) (pool : List Article) (x : ℝ × Article)
    (hx : x ∈ prefOtherScored ratio article window pool) :
    x = (similarity ratio article.title x.2.title, x.2) ∧
      x.2 ∈ pool.filter fun c => !selfSkip article c &&
        !sameSourceAs (srcOf article) c && !recentTo article window c := by
  obtain ⟨c, hc, rfl⟩ := List.mem_map.mp hx
  exact ⟨rfl, hc⟩

/-- Membership in tier 3 forces the leftover predicate. -/
lemma mem_prefTier3 (ratio : String → String → ℝ) (article : Article)
    (maxc : ℕ) (window : ℤ) (pool : List Article) (c : Article)
    (hc : c ∈ prefTier3 ratio article maxc window pool) :
    c ∈ pool ∧ selfSkip article c = false ∧
      sameSourceAs (srcOf article) c = false ∧
      recentTo article window c = false := by
  obtain ⟨x, hmem, rfl⟩ := List.mem_map.mp hc
  have h2 : x ∈ stableSortDesc Prod.fst (prefOtherScored ratio article window pool) :=
    (List.take_sublist _ _).subset hmem
  have h3 : x ∈ prefOtherScored ratio article window pool :=
    (stableSortDesc_perm _ _).mem_iff.mp h2
  have h4 := (mem_prefOtherScored _ _ _ _ _ h3).2
  have h := List.mem_filter.mp h4
  have h5 := h.2
  simp only [Bool.and_eq_true, Bool.not_eq_true'] at h5
  exact ⟨h.1, h5.1.1, h5.1.2, h5.2⟩

/-- Tier 3 has no duplicate articles when the pool has none. -/
lemma prefTier3_nodup (ratio : String → String → ℝ) (article : Article)
    (maxc : ℕ) (window : ℤ) (pool : List Article) (hnd : pool.Nodup) :
    (prefTier3 ratio article maxc window pool).Nodup := by
  have hfil : (pool.filter fun c => !selfSkip article c &&
      !sameSourceAs (srcOf article) c && !recentTo article window c).Nodup :=
    hnd.filter _
  have hinj : Function.Injective
      (fun c : Article => (similarity ratio article.title c.title, c)) :=
    fun a b h => congrArg Prod.snd h
  have hscored : (prefOtherScored ratio article window pool).Nodup := hfil.map hinj
  have hsorted : (stableSortDesc Prod.fst
      (prefOtherScored ratio article window pool)).Nodup :=
    ((stableSortDesc_perm _ _).nodup_iff).mpr hscored
  have htake : ((stableSortDesc Prod.fst
      (prefOtherScored ratio article window pool)).take
      (max 5 maxc - (prefTier1 article maxc pool ++
        prefTier2 article maxc window pool).length)).Nodup :=
    hsorted.sublist (List.take_sublist _ _)
  simp only [prefTier3]
  refine List.Nodup.map_on ?_ htake
  intro x hx y hy hxy
  have hx2 := (mem_prefOtherScored ratio article window pool x
    ((stableSortDesc_perm _ _).mem_iff.mp ((List.take_sublist _ _).subset hx))).1
  have hy2 := (mem_prefOtherScored ratio article window pool y
    ((stableSortDesc_perm _ _).mem_iff.mp ((List.take_sublist _ _).subset hy))).1
  rw [hx2, hy2, hxy]

/-- Claim C5 as amended: the prefilter returns at most `max(5, maxCandidates)`
records (the code enforces a floor of 5, so "at most maxCandidates" fails for
smaller values), never the target's own id, never the same pool record twice,
and fills in tier order: same-source candidates in pool order, then
candidates whose publication date is within `windowDays` (by the floored-days
test), then remaining budget by highest title-only fuzzy similarity. -/
theorem prefilter_amended (ratio : String → String → ℝ) (maxc : ℕ) (window : ℤ)
    (article : Article) (pool : List Article) (aid : ℤ)
    (hid : article.id = some aid) (hnd : pool.Nodup) :
    prefilter_candidates ratio maxc window article pool =
      prefTier1 article maxc pool ++ prefTier2 article maxc window pool ++
        prefTier3 ratio article maxc window pool ∧
    (prefilter_candidates ratio maxc window article pool).length ≤ max 5 maxc ∧
    (∀ c ∈ prefilter_candidates ratio maxc window article pool, c.id ≠ some aid) ∧
    (prefilter_candidates ratio maxc window article pool).Nodup := by
  have hskip : ∀ c : Article, selfSkip article c = false → c.id ≠ some aid := by
    intro c h
    rw [selfSkip, hid] at h
    simpa using h
  refine ⟨prefilter_eq_tiers ratio maxc window article pool, ?_, ?_, ?_⟩
  · rw [prefilter_eq_tiers]
    simp only [List.length_append]
    have h1 : (prefTier1 article maxc pool).length ≤ max 5 maxc := by
      simp only [prefTier1]
      exact List.length_take_le _ _
    have h2 : (prefTier2 article maxc window pool).length ≤
        max 5 maxc - (prefTier1 article maxc pool).length := by
      simp only [prefTier2]
      exact List.length_take_le _ _
    have h3 : (prefTier3 ratio article maxc window pool).length ≤
        max 5 maxc - (prefTier1 article maxc pool ++
          prefTier2 article maxc window pool).length := by
      simp only [prefTier3, List.length_map]
      exact List.length_take_le _ _
    rw [List.length_append] at h3
    omega
  · intro c hc
    rw [prefilter_eq_tiers] at hc
    rcases List.mem_append.mp hc with h12 | h3
    · rcases List.mem_append.mp h12 with h1 | h2
      · exact hskip c (mem_prefTier1 article maxc pool c h1).2.1
      · exact hskip c (mem_prefTier2 article maxc window pool c h2).2.1
    · exact hskip c (mem_prefTier3 ratio article maxc window pool c h3).2.1
  · rw [prefilter_eq_tiers, List.append_assoc]
    have d1 : (prefTier1 article maxc pool).Nodup :=
      (hnd.filter _).sublist (List.take_sublist _ _)
    have d2 : (prefTier2 article maxc window pool).Nodup :=
      (hnd.filter _).sublist (List.take_sublist _ _)
    have d3 : (prefTier3 ratio article maxc window pool).Nodup :=
      prefTier3_nodup ratio article maxc window pool hnd
    refine d1.append (d2.append d3 ?_) ?_
    · intro c hc2 hc3
      have p2 := mem_prefTier2 article maxc window pool c hc2
      have p3 := mem_prefTier3 ratio article maxc window pool c hc3
      exact Bool.noConfusion (p2.2.2.2.symm.trans p3.2.2.2)
    · intro c hc1 hc23
      have p1 := mem_prefTier1 article maxc pool c hc1
      rcases List.mem_append.mp hc23 with hc2 | hc3
      · have p2 := mem_prefTier2 article maxc window pool c hc2
        exact Bool.noConfusion (p1.2.2.symm.trans p2.2.2.1)
      · have p3 := mem_prefTier3 ratio article maxc window pool c hc3
        exact Bool.noConfusion (p1.2.2.symm.trans p3.2.2.1)

/-- Claim C5, counterexample: with `maxCandidates = 2` and six same-source
candidates the prefilter returns 5 records — the code floors the budget at
`max(5, maxCandidates)`, so "at most maxCandidates" fails. -/
theorem prefilter_maxcand_cex :
    (prefilter_candidates (fun _ _ => (0 : ℝ)) 2 3 pfTarget pfPool).length = 5 ∧
    ¬((5 : ℕ) ≤ 2) := by
  exact ⟨rfl, by decide⟩

/-- Witness for the amended C5 at a concrete target and pool. -/
theorem prefilter_amended_witness :
    (pfTarget.id = some 0 ∧ pfPool.Nodup) ∧
    (prefilter_candidates (fun _ _ => (0 : ℝ)) 2 3 pfTarget pfPool =
      prefTier1 pfTarget 2 pfPool ++ prefTier2 pfTarget 2 3 pfPool ++
        prefTier3 (fun _ _ => (0 : ℝ)) pfTarget 2 3 pfPool ∧
    (prefilter_candidates (fun _ _ => (0 : ℝ)) 2 3 pfTarget pfPool).length ≤ max 5 2 ∧
    (∀ c ∈ prefilter_candidates (fun _ _ => (0 : ℝ)) 2 3 pfTarget pfPool,
      c.id ≠ some 0) ∧
    (prefilter_candidates (fun _ _ => (0 : ℝ)) 2 3 pfTarget pfPool).Nodup) :=
  ⟨⟨rfl, by decide⟩,
    prefilter_amended (fun _ _ => (0 : ℝ)) 2 3 pfTarget pfPool 0 rfl (by decide)⟩

/-! Claim C3: the corroboration matcher. -/

/-- Every hit produced by the result-building loop comes from a prefiltered
candidate whose unrounded total score reaches the threshold, and stores that
total rounded to 4 decimals. -/
lemma mem_hitsOf (article : Article) (candidates : List Article) (sems : List ℝ)
    (threshold : ℝ) (h : Hit) (hh : h ∈ hitsOf article candidates sems threshold) :
    ∃ i c, candidates[i]? = some c ∧
      threshold ≤ sems.getD i 0 * (7/10) +
        compute_structural_similarity article c * (3/10) ∧
      h = ⟨c.id, c.title, pyOrStr c.source c.feed,
        round4R (sems.getD i 0 * (7/10) +
          compute_structural_similarity article c * (3/10))⟩ := by
  obtain ⟨⟨i, c⟩, hmem, hf⟩ := List.mem_filterMap.mp hh
  refine ⟨i, c, List.mk_mem_enum_iff_getElem?.mp hmem, ?_, ?_⟩
  all_goals
    by_cases hth : sems.getD i 0 * (7/10) +
        compute_structural_similarity article c * (3/10) ≥ threshold
  · exact hth
  · rw [if_neg hth] at hf
    exact absurd hf (by simp)
  · rw [if_pos hth] at hf
    exact (Option.some.injEq _ _ ▸ hf).symm
  · rw [if_neg hth] at hf
    exact absurd hf (by simp)

/-- Claim C3 as amended: for nonzero `topN` the matcher returns the stable
descending sort of the thresholded hit list truncated to `topN` entries; each
hit's similarity is the 4-decimal rounding of `0.7·semanticSim +
0.3·structuralSim` whose **unrounded** value reaches the threshold (the
rounded value stored can dip below an adversarial threshold); the output is
sorted descending and equal-score ties keep prefilter order; `topN = 0`
disables truncation in the code, hence the hypothesis. -/
theorem find_corroborations_amended (ratio : String → String → ℝ)
    (semS : String → List String → List ℝ) (maxc : ℕ) (window : ℤ)
    (article : Article) (pool : List Article) (threshold : ℝ) (top_n : ℕ)
    (htop : top_n ≠ 0) :
    find_corroborations ratio semS maxc window article pool threshold top_n =
      (stableSortDesc Hit.similarity
        (matcherHits ratio semS maxc window article pool threshold)).take top_n ∧
    (find_corroborations ratio semS maxc window article pool threshold top_n).length ≤
      top_n ∧
    (find_corroborations ratio semS maxc window article pool threshold
      top_n).Pairwise (fun a b => b.similarity ≤ a.similarity) ∧
    (∀ h ∈ find_corroborations ratio semS maxc window article pool threshold top_n,
      ∃ i c, (prefilter_candidates ratio maxc window article pool)[i]? = some c ∧
        threshold ≤ (semS (textOf article)
            ((prefilter_candidates ratio maxc window article pool).map textOf)).getD i 0 *
            (7/10) + compute_structural_similarity article c * (3/10) ∧
        h = ⟨c.id, c.title, pyOrStr c.source c.feed,
          round4R ((semS (textOf article)
            ((prefilter_candidates ratio maxc window article pool).map textOf)).getD i 0 *
            (7/10) + compute_structural_similarity article c * (3/10))⟩) ∧
    (∀ k : ℝ,
      (stableSortDesc Hit.similarity
        (matcherHits ratio semS maxc window article pool threshold)).filter
          (fun x => decide (x.similarity = k)) =
      (matcherHits ratio semS maxc window article pool threshold).filter
        (fun x => decide (x.similarity = k))) := by
  have h1 : find_corroborations ratio semS maxc window article pool threshold top_n =
      (stableSortDesc Hit.similarity
        (matcherHits ratio semS maxc window article pool threshold)).take top_n := by
    by_cases hp : pool = []
    · subst hp
      simp [find_corroborations, matcherHits, prefilter_candidates, hitsOf,
        stableSortDesc]
    · simp only [find_corroborations, if_neg hp, if_pos htop, matcherHits]
  refine ⟨h1, ?_, ?_, ?_, fun k => stableSortDesc_filter _ k _⟩
  · rw [h1]
    exact List.length_take_le _ _
  · rw [h1]
    exact (stableSortDesc_sorted Hit.similarity _).sublist (List.take_sublist _ _)
  · intro h hmem
    rw [h1] at hmem
    have h2 : h ∈ stableSortDesc Hit.similarity
        (matcherHits ratio semS maxc window article pool threshold) :=
      (List.take_sublist _ _).subset hmem
    have h3 : h ∈ matcherHits ratio semS maxc window article pool threshold :=
      (stableSortDesc_perm _ _).mem_iff.mp h2
    exact mem_hitsOf article _ _ threshold h h3

/-- Witness for the amended C3 at a concrete matcher invocation. -/
theorem find_corroborations_amended_witness :
    ((10 : ℕ) ≠ 0) ∧
    find_corroborations (fun _ _ => (0 : ℝ)) (fun _ _ => []) 25 3 mTarget [mCand]
        (1/2) 10 =
      (stableSortDesc Hit.similarity
        (matcherHits (fun _ _ => (0 : ℝ)) (fun _ _ => []) 25 3 mTarget [mCand]
          (1/2))).take 10 :=
  ⟨by decide,
    (find_corroborations_amended (fun _ _ => (0 : ℝ)) (fun _ _ => []) 25 3 mTarget
      [mCand] (1/2) 10 (by decide)).1⟩

/-- Claim C3, counterexample: with `topN = 0` the guard `if top_n:` skips
truncation and the matcher returns one hit, violating "at most topN entries";
moreover the stored similarity is the rounded total `0.651`, which is
**below** the threshold `0.651005` the unrounded total `0.651007` passed —
so "similarity at least the threshold" fails as well. -/
theorem find_corroborations_topn_cex :
    find_corroborations (fun _ _ => (0 : ℝ))
        (fun _ _ => [(93001/100000 : ℝ)]) 25 3 mTarget [mCand]
        (651005/1000000) 0 =
      [⟨some 2, "c", some "b", 651/1000⟩] ∧
    (651/1000 : ℝ) < 651005/1000000 := by
  constructor
  · have hstruct : compute_structural_similarity mTarget mCand = 0 := by
      have c1 : srcOf mTarget ≠ "" ∧ srcOf mCand ≠ "" := by decide
      have c2 : ¬(mTarget.themes.toFinset ≠ ∅ ∧ mCand.themes.toFinset ≠ ∅) := by
        decide
      have c3 : ¬(srcOf mTarget = srcOf mCand) := by decide
      simp only [compute_structural_similarity]
      rw [if_pos c1, if_neg c2, if_neg c3]
      simp [dateOf, mTarget, mCand]
    have hgetD : ([(93001/100000 : ℝ)]).getD 0 0 = 93001/100000 := rfl
    have hr4 : round4R (651007/1000000 : ℝ) = 651/1000 := by
      unfold round4R pyRoundR
      rw [show (651007/1000000 : ℝ) * 10000 = 651007/100 by norm_num]
      have hfl : ⌊(651007/100 : ℝ)⌋ = 6510 := by
        rw [Int.floor_eq_iff]
        constructor <;> norm_num
      have hfr : Int.fract (651007/100 : ℝ) ≠ 1/2 := by
        rw [Int.fract, hfl]
        norm_num
      rw [if_neg hfr, round_eq,
        show (651007/100 : ℝ) + 1/2 = 651057/100 by norm_num]
      rw [show ⌊(651057/100 : ℝ)⌋ = 6510 from by
        rw [Int.floor_eq_iff]
        constructor <;> norm_num]
      norm_num
    have hhits : hitsOf mTarget [mCand] [(93001/100000 : ℝ)] (651005/1000000) =
        [⟨some 2, "c", some "b", (651/1000 : ℝ)⟩] := by
      simp only [hitsOf]
      rw [show List.enum [mCand] = [(0, mCand)] from rfl]
      have hcond : ([(93001/100000 : ℝ)]).getD 0 0 * (7/10) +
          compute_structural_similarity mTarget mCand * (3/10) ≥ 651005/1000000 := by
        rw [hgetD, hstruct]
        norm_num
      simp only [List.filterMap]
      rw [if_pos hcond]
      rw [show ([(93001/100000 : ℝ)]).getD 0 0 * (7/10) +
          compute_structural_similarity mTarget mCand * (3/10) = 651007/1000000 from by
        rw [hgetD, hstruct]; norm_num]
      rw [hr4]
      rfl
    have hpre : prefilter_candidates (fun _ _ => (0 : ℝ)) 25 3 mTarget [mCand] =
        [mCand] := rfl
    simp only [find_corroborations]
    rw [if_neg (show ¬([mCand] = []) by simp), hpre]
    rw [if_neg (show ¬((0 : ℕ) ≠ 0) by simp)]
    show stableSortDesc Hit.similarity
      (hitsOf mTarget [mCand] [(93001/100000 : ℝ)] (651005/1000000)) = _
    rw [hhits]
    rfl
  · norm_num

/-! Claim C4: failure isolation in the batch worker. -/

/-- Keys after adding one item: unchanged when the key exists, appended
otherwise. -/
lemma addToGroups_keys (gs : List ((String × String) × List EvidenceItem))
    (k : String × String) (e : EvidenceItem) :
    (addToGroups gs k e).map Prod.fst =
      if k ∈ gs.map Prod.fst then gs.map Prod.fst else gs.map Prod.fst ++ [k] := by
  induction gs with
  | nil => simp [addToGroups]
  | cons g rest ih =>
    obtain ⟨k', es⟩ := g
    by_cases h : k' = k
    · simp [addToGroups, h]
    · have hne : ¬ k = k' := fun e => h e.symm
      simp only [addToGroups, if_neg h, List.map_cons, ih]
      by_cases h2 : k ∈ rest.map Prod.fst
      · rw [if_pos h2, if_pos (List.mem_cons.mpr (Or.inr h2))]
      · rw [if_neg h2, if_neg (fun hc => (List.mem_cons.mp hc).elim hne h2)]
        exact (List.cons_append _ _ _).symm

/-- Adding an item preserves distinctness of group keys. -/
lemma addToGroups_keys_nodup (gs : List ((String × String) × List EvidenceItem))
    (k : String × String) (e : EvidenceItem)
    (h : (gs.map Prod.fst).Nodup) : ((addToGroups gs k e).map Prod.fst).Nodup := by
  rw [addToGroups_keys]
  by_cases h2 : k ∈ gs.map Prod.fst
  · simpa [h2] using h
  · simp [h2, List.nodup_append, h]

/-- The grouping pass produces pairwise-distinct entity keys. -/
lemma groupRows_keys_nodup (rows : List EvRow) :
    ((groupRows rows).map Prod.fst).Nodup := by
  have H : ∀ (rs : List EvRow) (gs : List ((String × String) × List EvidenceItem)),
      (gs.map Prod.fst).Nodup →
      ((rs.foldl (fun gs r =>
        addToGroups gs (r.entity_type, r.entity_id) (evItemOfRow r)) gs).map
          Prod.fst).Nodup := by
    intro rs
    induction rs with
    | nil => intro gs h; simpa using h
    | cons r rest ih =>
      intro gs h
      simp only [List.foldl_cons]
      exact ih _ (addToGroups_keys_nodup _ _ _ h)
  exact H rows [] (by simp)

/-- With distinct keys, a key determines its group's evidence list. -/
lemma groups_key_unique {l : List ((String × String) × List EvidenceItem)}
    (hnd : (l.map Prod.fst).Nodup) {k : String × String}
    {evs evs' : List EvidenceItem}
    (h1 : (k, evs) ∈ l) (h2 : (k, evs') ∈ l) : evs = evs' := by
  induction l with
  | nil => cases h1
  | cons g rest ih =>
    obtain ⟨kg, eg⟩ := g
    rw [List.map_cons, List.nodup_cons] at hnd
    rcases List.mem_cons.mp h1 with he1 | h1' <;>
      rcases List.mem_cons.mp h2 with he2 | h2'
    · injection he1 with e1 e2
      injection he2 with e3 e4
      rw [e2, e4]
    · injection he1 with e1 e2
      have hm : k ∈ rest.map Prod.fst := List.mem_map_of_mem Prod.fst h2'
      exact absurd (e1 ▸ hm) hnd.1
    · injection he2 with e3 e4
      have hm : k ∈ rest.map Prod.fst := List.mem_map_of_mem Prod.fst h1'
      exact absurd (e3 ▸ hm) hnd.1
    · exact ih hnd.2 h1' h2'

/-- An upsert of a different key does not change a lookup. -/
lemma lookupPrior_upsert_ne (k k' : String × String) (p : PriorRecord)
    (ps : List ((String × String) × PriorRecord)) (h : k' ≠ k) :
    lookupPrior k (upsertPrior k' p ps) = lookupPrior k ps := by
  induction ps with
  | nil => simp [upsertPrior, lookupPrior, h]
  | cons g rest ih =>
    obtain ⟨k'', p''⟩ := g
    by_cases h2 : k'' = k'
    · subst h2
      simp [upsertPrior, lookupPrior, h]
    · simp only [upsertPrior, if_neg h2, lookupPrior]
      by_cases h3 : k'' = k <;> simp [h3, ih]

/-- An upsert is visible to a lookup of the same key. -/
lemma lookupPrior_upsert_self (k : String × String) (p : PriorRecord)
    (ps : List ((String × String) × PriorRecord)) :
    lookupPrior k (upsertPrior k p ps) = some p := by
  induction ps with
  | nil => simp [upsertPrior, lookupPrior]
  | cons g rest ih =>
    obtain ⟨k'', p''⟩ := g
    by_cases h2 : k'' = k
    · subst h2
      simp [upsertPrior, lookupPrior]
    · simp [upsertPrior, lookupPrior, h2, ih]

/-- Groups whose key is absent leave a lookup unchanged across the fold. -/
lemma fold_lookup_not_mem (fuse : List EvidenceItem → Option FusionOut)
    (groups : List ((String × String) × List EvidenceItem))
    (ps : List ((String × String) × PriorRecord)) (k : String × String)
    (h : k ∉ groups.map Prod.fst) :
    lookupPrior k (groups.foldl (worker_step fuse) ps) = lookupPrior k ps := by
  induction groups generalizing ps with
  | nil => rfl
  | cons g rest ih =>
    have hk : g.1 ≠ k := fun e => h (by simp [e])
    have hrest : k ∉ rest.map Prod.fst := fun e => h (by simp [e])
    simp only [List.foldl_cons]
    rw [ih _ hrest]
    cases hf : fuse g.2 <;> simp [worker_step, hf, lookupPrior_upsert_ne _ _ _ _ hk]

/-- A failing group's key keeps its pre-batch prior across the fold. -/
lemma fold_lookup_skip (fuse : List EvidenceItem → Option FusionOut)
    (groups : List ((String × String) × List EvidenceItem))
    (ps : List ((String × String) × PriorRecord)) (k : String × String)
    (evs : List EvidenceItem) (hnd : (groups.map Prod.fst).Nodup)
    (hmem : (k, evs) ∈ groups) (hfail : fuse evs = none) :
    lookupPrior k (groups.foldl (worker_step fuse) ps) = lookupPrior k ps := by
  induction groups generalizing ps with
  | nil => cases hmem
  | cons g rest ih =>
    rw [List.map_cons, List.nodup_cons] at hnd
    simp only [List.foldl_cons]
    rcases List.mem_cons.mp hmem with he | hmem'
    · have hgk : g.1 = k := by rw [← he]
      rw [show worker_step fuse ps g = ps from by
        rw [← he]
        simp [worker_step, hfail]]
      exact fold_lookup_not_mem fuse rest ps k (hgk ▸ hnd.1)
    · have hk : g.1 ≠ k :=
        fun e => hnd.1 (e ▸ List.mem_map_of_mem Prod.fst hmem')
      rw [ih _ hnd.2 hmem']
      cases hf : fuse g.2 <;> simp [worker_step, hf, lookupPrior_upsert_ne _ _ _ _ hk]

/-- A succeeding group's upserted prior survives to the end of the fold. -/
lemma fold_lookup_success (fuse : List EvidenceItem → Option FusionOut)
    (groups : List ((String × String) × List EvidenceItem))
    (ps : List ((String × String) × PriorRecord)) (k : String × String)
    (evs : List EvidenceItem) (out : FusionOut)
    (hnd : (groups.map Prod.fst).Nodup) (hmem : (k, evs) ∈ groups)
    (hok : fuse evs = some out) :
    lookupPrior k (groups.foldl (worker_step fuse) ps) =
      some ⟨out.posterior, max (1/100) (1 - out.confidence), none, none⟩ := by
  induction groups generalizing ps with
  | nil => cases hmem
  | cons g rest ih =>
    rw [List.map_cons, List.nodup_cons] at hnd
    simp only [List.foldl_cons]
    rcases List.mem_cons.mp hmem with he | hmem'
    · rw [show worker_step fuse ps g =
          upsertPrior k ⟨out.posterior, max (1/100) (1 - out.confidence), none, none⟩
            ps from by
        rw [← he]
        simp [worker_step, hok]]
      have hgk : g.1 = k := by rw [← he]
      rw [fold_lookup_not_mem fuse rest _ k (hgk ▸ hnd.1)]
      exact lookupPrior_upsert_self _ _ _
    · exact ih _ hnd.2 hmem'

/-- Claim C4: in a batch cycle where the fusion step of the group `(k, evs)`
throws, that group's `PriorRecord` write is skipped (its prior lookup is
unchanged), every other group whose fusion succeeds is still upserted with
`mu = posterior, sigma = max(0.01, 1 − confidence)`, and every claimed
evidence row — the failed group's rows included — is marked
`processed = true`. -/
theorem run_batch_group_isolation (fuse : List EvidenceItem → Option FusionOut)
    (limit : ℕ) (db : WorkerDB) (k : String × String) (evs : List EvidenceItem)
    (hmem : (k, evs) ∈ groupRows ((db.evidence.filter fun r => !r.processed).take limit))
    (hfail : fuse evs = none) :
    (∀ r ∈ (run_batch fuse limit db).evidence,
      r.id ∈ ((db.evidence.filter fun r => !r.processed).take limit).map EvRow.id →
        r.processed = true) ∧
    lookupPrior k (run_batch fuse limit db).priors = lookupPrior k db.priors ∧
    (∀ (k' : String × String) (evs' : List EvidenceItem) (out : FusionOut),
      (k', evs') ∈ groupRows ((db.evidence.filter fun r => !r.processed).take limit) →
      fuse evs' = some out →
      lookupPrior k' (run_batch fuse limit db).priors =
        some ⟨out.posterior, max (1/100) (1 - out.confidence), none, none⟩) := by
  have hrows : (db.evidence.filter fun r => !r.processed).take limit ≠ [] := by
    intro he
    rw [he] at hmem
    cases hmem
  have hnd := groupRows_keys_nodup ((db.evidence.filter fun r => !r.processed).take limit)
  refine ⟨?_, ?_, ?_⟩
  · intro r hr hid
    simp only [run_batch, if_neg hrows] at hr
    obtain ⟨r0, _, he⟩ := List.mem_map.mp hr
    by_cases hin : r0.id ∈
        ((db.evidence.filter fun r => !r.processed).take limit).map EvRow.id
    · rw [if_pos hin] at he
      rw [← he]
    · rw [if_neg hin] at he
      rw [← he] at hid
      exact absurd hid hin
  · simp only [run_batch, if_neg hrows]
    exact fold_lookup_skip fuse _ db.priors k evs hnd hmem hfail
  · intro k' evs' out hmem' hok
    simp only [run_batch, if_neg hrows]
    exact fold_lookup_success fuse _ db.priors k' evs' out hnd hmem' hok

/-- Witness for C4 on a concrete three-row, two-group batch whose
single-row group fails to fuse. -/
theorem run_batch_group_isolation_witness :
    ((("t", "a"), [evItemOfRow wRow1]) ∈
        groupRows ((wDB.evidence.filter fun r => !r.processed).take 10) ∧
      wFuse [evItemOfRow wRow1] = none) ∧
    ((∀ r ∈ (run_batch wFuse 10 wDB).evidence,
      r.id ∈ ((wDB.evidence.filter fun r => !r.processed).take 10).map EvRow.id →
        r.processed = true) ∧
    lookupPrior ("t", "a") (run_batch wFuse 10 wDB).priors =
      lookupPrior ("t", "a") wDB.priors ∧
    (∀ (k' : String × String) (evs' : List EvidenceItem) (out : FusionOut),
      (k', evs') ∈ groupRows ((wDB.evidence.filter fun r => !r.processed).take 10) →
      wFuse evs' = some out →
      lookupPrior k' (run_batch wFuse 10 wDB).priors =
        some ⟨out.posterior, max (1/100) (1 - out.confidence), none, none⟩)) :=
  ⟨⟨by decide, by decide⟩,
    run_batch_group_isolation wFuse 10 wDB ("t", "a") [evItemOfRow wRow1]
      (by decide) (by decide)⟩

end RSSAgg
